import Mathlib

/-!
Verification development for the douyin-nas-asr server core: a shallow
embedding in Lean 4 of the retrieval pipeline (`src/server/downloader.py`),
the JSON cache manager (`src/server/json_manager.py`), the task layer
(`src/server/tasks.py`) and the task registry (`src/server/task_manager.py`),
together with theorems settling the frozen claims about that code.

Modelling conventions:
* Python JSON values are embedded as the inductive `JVal`; Python's
  `dict.get(key, default)` is `JVal.getD`, Python truthiness is `JVal.truthy`.
* The filesystem visited by the downloader is a list of `DPath` values (a
  path is its directory components, stem and suffix); file contents are
  irrelevant to the downloader, only existence matters.
* Network and transcription I/O are oracles passed in explicitly: `Net`
  says which URLs would download successfully, the metadata fetch is an
  `Except`-valued function of the cache key, transcription is an
  `Except`-valued function of the file path.
* Python exceptions are `Except.error`; a `try/except` block is a `match`
  on the `Except` value.  The external HEIC image library is modelled as
  always succeeding.
-/

namespace DouyinNasAsr

/-- Embedded JSON value (what `response.json()` / `json.load` produce). -/
inductive JVal where
  | null : JVal
  | str (s : String) : JVal
  | num (n : Int) : JVal
  | bool (b : Bool) : JVal
  | arr (xs : List JVal) : JVal
  | obj (fields : List (String × JVal)) : JVal

/-- Python `dict.get(key, default)`; on a non-dict value the code under
consideration only ever calls `.get` after defaulting to `{}`, so a
non-object value yields the default. -/
def JVal.getD (v : JVal) (key : String) (dflt : JVal) : JVal :=
  match v with
  | .obj fields =>
    match fields.find? (fun p => p.1 == key) with
    | some p => p.2
    | none => dflt
  | _ => dflt

/-- Python truthiness of a JSON value (`if not x`, `bool(x)`). -/
def JVal.truthy : JVal → Bool
  | .null => false
  | .str s => !(s == "")
  | .num n => !(n == 0)
  | .bool b => b
  | .arr xs => !xs.isEmpty
  | .obj fields => !fields.isEmpty

/-- Python `x == n` for an int literal `n` (used for `media_type in [2, 68]`). -/
def JVal.isNum (v : JVal) (n : Int) : Bool :=
  match v with
  | .num m => m == n
  | _ => false

/-- Python `str(x)` restricted to the shapes the code meets (strings and
numbers; the container cases are unreachable in the claims). -/
def JVal.pyStr : JVal → String
  | .str s => s
  | .num n => toString n
  | .bool b => if b then "True" else "False"
  | .null => "None"
  | .arr _ => "<arr>"
  | .obj _ => "<obj>"

/-- Elements of a JSON array that are strings (a `url_list` value). -/
def JVal.strings : JVal → List String
  | .arr xs => xs.filterMap (fun v => match v with | .str s => some s | _ => none)
  | _ => []

/-- Association-list lookup, the model of a dict / unique-key table read. -/
def alookup {κ α : Type} [DecidableEq κ] (k : κ) : List (κ × α) → Option α
  | [] => none
  | (k', v) :: rest => if k = k' then some v else alookup k rest

/-- Association-list insert-or-update, the model of `dict[k] = v` and of the
SQL `INSERT ... ON CONFLICT ... DO UPDATE` upsert. -/
def upsert {κ α : Type} [DecidableEq κ] (k : κ) (v : α) : List (κ × α) → List (κ × α)
  | [] => [(k, v)]
  | (k', v') :: rest => if k = k' then (k, v) :: rest else (k', v') :: upsert k v rest

/-! ## Input parsing (`downloader.py`: `_extract_douyin_code_regex`, `_parse_input`) -/

/-- Python `str.strip()` on the character list (whitespace off both ends). -/
def stripChars (l : List Char) : List Char :=
  ((l.dropWhile Char.isWhitespace).reverse.dropWhile Char.isWhitespace).reverse

/-- Leading-match test of a literal character sequence against a text. -/
def matchesLit : List Char → List Char → Bool
  | [], _ => true
  | _ :: _, [] => false
  | a :: as, b :: bs => a == b && matchesLit as bs

/-- Character-list match of the literal `v.douyin.com/` followed by at least
one ASCII alphanumeric character, returning the maximal alphanumeric run;
a leftmost-search step of the regex `v\.douyin\.com/([a-zA-Z0-9]+)`. -/
def extractCodeAux : List Char → Option String
  | [] => none
  | c :: rest =>
    let lit := "v.douyin.com/".toList
    if matchesLit lit (c :: rest) then
      let run := ((c :: rest).drop lit.length).takeWhile Char.isAlphanum
      if run.isEmpty then extractCodeAux rest else some (String.mk run)
    else
      extractCodeAux rest

/-- Model of `_extract_douyin_code_regex`: leftmost occurrence of the
short-code pattern in the text, or `none`. -/
def extractDouyinCode (text : String) : Option String :=
  extractCodeAux text.toList

/-- The two request shapes `_parse_input` can produce: metadata-by-id with
params `aweme_id` = the text, or metadata-by-share-url with params
`share_url` = the text; the second component of each is the cache key. -/
inductive ParsedInput where
  | byId (awemeId : String) : ParsedInput
  | byUrl (shareUrl : String) (shortCode : String) : ParsedInput
deriving DecidableEq, Repr

/-- Cache key chosen by `_parse_input` (the numeric id, or the short code). -/
def ParsedInput.cacheKey : ParsedInput → String
  | .byId t => t
  | .byUrl _ c => c

/-- Model of `DouyinDownloader._parse_input`: strip, then try the bare
18-20 digit id (`re.fullmatch(r"\d{18,20}", text)`), then the short-code
extraction; anything else raises `ValueError`. -/
def parseInput (text : String) : Except String ParsedInput :=
  let tl := stripChars text.toList
  let t := String.mk tl
  if tl.all Char.isDigit ∧ 18 ≤ tl.length ∧ tl.length ≤ 20 then
    .ok (.byId t)
  else
    match extractDouyinCode t with
    | some code => .ok (.byUrl t code)
    | none => .error ("unable to parse input text: " ++ t)

/-! ## Media classification (`downloader.py`, `download` lines 301-320) -/

/-- The four dispatch outcomes of `download`. -/
inductive MediaRoute where
  | gallery : MediaRoute
  | mixed : MediaRoute
  | video : MediaRoute
  | unknown : MediaRoute
deriving DecidableEq, Repr

/-- Model of the routing block of `download`: the three flags are computed
from the `media_type` tag and the structural presence of `images` / `video`,
and tested in the order `is_images`, `is_mixed`, `is_video`. -/
def classify (mediaType : JVal) (hasImages hasVideo : Bool) : MediaRoute :=
  let isImages := (mediaType.isNum 2 || mediaType.isNum 68) || (hasImages && !hasVideo)
  let isMixed := mediaType.isNum 42 || (hasImages && hasVideo)
  let isVideo := mediaType.isNum 4 || (hasVideo && !hasImages)
  if isImages then .gallery
  else if isMixed then .mixed
  else if isVideo then .video
  else .unknown

/-! ## Filesystem and download executor (`downloader.py` lines 38-220) -/

/-- Destination path: directory components, stem and suffix, mirroring the
`pathlib.Path` operations the code uses (`parent`, `stem`, `suffix`,
`with_suffix`).  The suffix carries its leading dot, e.g. `".mp4"`. -/
structure DPath where
  dir : List String
  stem : String
  suffix : String
deriving DecidableEq, Repr

/-- Python `Path.with_suffix`. -/
def DPath.withSuffix (p : DPath) (s : String) : DPath :=
  { p with suffix := s }

/-- ASCII lower-casing of a suffix string (Python `str.lower()`). -/
def strLower (s : String) : String :=
  String.mk (s.toList.map Char.toLower)

/-- The downloader-visible filesystem: the set (as a list) of paths that
currently exist.  File contents never matter to the downloader. -/
abbrev MFS := List DPath

/-- Create a file (directory creation is implicit, as with
`mkdir(parents=True, exist_ok=True)` followed by the write). -/
def insertP (fs : MFS) (p : DPath) : MFS :=
  if p ∈ fs then fs else p :: fs

/-- Python `Path.unlink()` of a possibly-present file. -/
def removeP (fs : MFS) (p : DPath) : MFS :=
  fs.filter (fun q => decide (q ≠ p))

/-- Which URLs the network would deliver successfully. -/
structure Net where
  fetchOk : String → Bool

/-- Model of `heic_to_jpg`: when the file exists and has (lower-cased)
suffix `.heic`, write the `.jpg` sibling and delete the original; otherwise
do nothing.  The external HEIC decoding library is modelled as total. -/
def heicToJpg (fs : MFS) (p : DPath) : MFS :=
  if p ∈ fs ∧ strLower p.suffix = ".heic" then
    insertP (removeP fs p) (p.withSuffix ".jpg")
  else fs

/-- Model of `DouyinDownloader._download_file`: on network success write the
file and post-process a `.heic`;
on failure delete whatever exists at the destination and re-raise
(the boolean is success). -/
def downloadFile (net : Net) (fs : MFS) (url : String) (save : DPath) : MFS × Bool :=
  if net.fetchOk url then
    let fs1 := insertP fs save
    let fs2 := if strLower save.suffix = ".heic" then heicToJpg fs1 save else fs1
    (fs2, true)
  else
    (removeP fs save, false)

/-- Mirror loop of `_download_with_retry`: try each URL in order until one
download succeeds; the `Nat` counts network download attempts. -/
def tryUrls (net : Net) (fs : MFS) (save : DPath) : List String → MFS × Bool × Nat
  | [] => (fs, false, 0)
  | url :: rest =>
    let r := downloadFile net fs url save
    if r.2 then (r.1, true, 1)
    else
      let rr := tryUrls net r.1 save rest
      (rr.1, rr.2.1, rr.2.2 + 1)

/-- Model of `DouyinDownloader._download_with_retry`: an existing
destination is skipped (success, zero attempts) unless it is a `.heic`
without its `.jpg` counterpart; an empty mirror list raises; otherwise the
mirrors are tried in order, success meaning some mirror delivered. -/
def downloadWithRetry (net : Net) (fs : MFS) (urls : List String) (save : DPath) :
    MFS × Bool × Nat :=
  if save ∈ fs ∧ ¬(strLower save.suffix = ".heic" ∧ save.withSuffix ".jpg" ∉ fs) then
    (fs, true, 0)
  else if urls = [] then
    (fs, false, 0)
  else
    tryUrls net fs save urls

/-- Sequentialised execution of the per-pair retry tasks of
`_batch_download` (`asyncio.gather` with `return_exceptions=True`: each
task only touches its own destination, and every per-pair exception is
swallowed and logged). -/
def runPairs (net : Net) (fs : MFS) : List (List String × DPath) → MFS × Nat
  | [] => (fs, 0)
  | (urls, save) :: rest =>
    let r := downloadWithRetry net fs urls save
    let rr := runPairs net r.1 rest
    (rr.1, r.2.2 + rr.2)

/-- Model of `DouyinDownloader._batch_download`: returns (in order) the
recorded destinations that exist on disk after all attempts, together with
the final filesystem and the total number of network download attempts. -/
def batchDownload (net : Net) (fs : MFS) (pairs : List (List String × DPath)) :
    List DPath × MFS × Nat :=
  if pairs.isEmpty then ([], fs, 0)
  else
    let r := runPairs net fs pairs
    ((pairs.map Prod.snd).filter (fun p => decide (p ∈ r.1)), r.1, r.2)

/-! ## Metadata helpers and the per-shape strategies (`downloader.py` 132-284) -/

/-- Model of `_get_safe_filename`: replace filesystem-unsafe characters by
`_`, strip whitespace, strip dots off both ends, truncate to `maxLength`
characters; the empty input falls back to `"Untitled"`.  (The source's
`max_length` default of 60 is passed explicitly at every use site.) -/
def getSafeFilename (text : String) (maxLength : Nat) : String :=
  if text == "" then "Untitled"
  else
    let replaced := text.toList.map
      (fun c => if ['\\', '/', '*', '?', ':', '"', '<', '>', '|'].contains c then '_' else c)
    let t := stripChars replaced
    let noDots := ((t.dropWhile (· == '.')).reverse.dropWhile (· == '.')).reverse
    String.mk (noDots.take maxLength)

/-- Model of `DouyinDownloader._extract_metadata`: author folder name (uid
remapped through `settings.uid_to_name_map`, falling back to the nickname)
and description (falling back to the aweme id, then `"untitled"`). -/
def extractMetadata (uidMap : List (String × String)) (d : JVal) : String × String :=
  let authorInfo := d.getD "author" (.obj [])
  let uid := authorInfo.getD "uid" (.str "UnknownUserID")
  let nickname := (authorInfo.getD "nickname" (.str "UnknownAuthor")).pyStr
  let authorName :=
    match uid with
    | .str s => (alookup s uidMap).getD nickname
    | _ => nickname
  let descV := d.getD "desc" .null
  let descV := if descV.truthy then descV else d.getD "aweme_id" (.str "untitled")
  (authorName, descV.pyStr)

/-- Collaborators and configuration the downloader reads: the network
oracle, the metadata source (`_fetch_aweme_data`, covering both the JSON
cache and the external API, keyed by the cache key), the two media roots
and the uid remapping table from `settings`. -/
structure DlEnv where
  net : Net
  fetch : String → Except String JVal
  videoDir : String
  imageDir : String
  uidMap : List (String × String)

/-- Model of `DouyinDownloader._process_single_video`: extract the video
mirror list (raising when it is absent or empty), build
`<video-root>/<author>/<safe-title>.mp4` and delegate to the batch
executor. -/
def processSingleVideo (env : DlEnv) (fs : MFS) (awemeDetail : JVal) :
    Except String (List DPath × MFS × Nat) :=
  let meta := extractMetadata env.uidMap awemeDetail
  let playAddr := (awemeDetail.getD "video" (.obj [])).getD "play_addr" (.obj [])
  let urlListV := playAddr.getD "url_list" .null
  if urlListV.truthy then
    let savePath : DPath :=
      { dir := [env.videoDir, meta.1], stem := getSafeFilename meta.2 60, suffix := ".mp4" }
    .ok (batchDownload env.net fs [(urlListV.strings, savePath)])
  else
    .error "no video play address found"

/-- Two-digit zero-padded counter (Python `f"{i:02d}"`). -/
def fmt02 (n : Nat) : String :=
  if n < 10 then "0" ++ toString n else toString n

/-- One item of the gallery loop in `_process_gallery`: a video item (mixed
mode only) becomes `video_NN.mp4` from its h264 or plain play address; an
item with an image `url_list` becomes `image_NN.heic`; anything else
contributes nothing. -/
def galleryItemTask (saveDir : List String) (isMixed : Bool) (i : Nat) (item : JVal) :
    Option (List String × DPath) :=
  let videoItem := item.getD "video" (.obj [])
  let h264 := (videoItem.getD "play_addr_h264" (.obj [])).getD "url_list" .null
  let plain := (videoItem.getD "play_addr" (.obj [])).getD "url_list" .null
  let videoUrls := if h264.truthy then h264 else plain
  if isMixed && videoUrls.truthy then
    some (videoUrls.strings,
      { dir := saveDir, stem := "video_" ++ fmt02 (i + 1), suffix := ".mp4" })
  else
    let imgUrls := item.getD "url_list" .null
    if imgUrls.truthy then
      some (imgUrls.strings,
        { dir := saveDir, stem := "image_" ++ fmt02 (i + 1), suffix := ".heic" })
    else none

/-- Index-paired traversal used to model Python `enumerate`. -/
def enumFrom {α β : Type} (f : Nat → α → Option β) : Nat → List α → List β
  | _, [] => []
  | i, x :: xs =>
    match f i x with
    | some y => y :: enumFrom f (i + 1) xs
    | none => enumFrom f (i + 1) xs

/-- Model of `DouyinDownloader._process_gallery`: raise when the `images`
list is absent or empty, pick the base root (`video_dir` when mixed,
`image_dir` otherwise), build the numbered download pairs and delegate to
the batch executor. -/
def processGallery (env : DlEnv) (fs : MFS) (awemeDetail : JVal) (isMixed : Bool) :
    Except String (List DPath × MFS × Nat) :=
  let meta := extractMetadata env.uidMap awemeDetail
  let mediaList := awemeDetail.getD "images" .null
  if mediaList.truthy then
    let baseRoot := if isMixed then env.videoDir else env.imageDir
    let folderName := getSafeFilename meta.2 60
    let saveDir := [baseRoot, meta.1, folderName]
    let tasks :=
      match mediaList with
      | .arr items => enumFrom (galleryItemTask saveDir isMixed) 0 items
      | _ => []
    .ok (batchDownload env.net fs tasks)
  else
    .error "no media list (images) found"

/-- The `aweme_detail` extraction of `download`
(`data.get("data", {}).get("aweme_detail")`). -/
def awemeDetailOf (data : JVal) : JVal :=
  (data.getD "data" (.obj [])).getD "aweme_detail" .null

/-- Route chosen by the dispatch block of `download` for a detail object. -/
def routeOf (d : JVal) : MediaRoute :=
  classify (d.getD "media_type" .null) (d.getD "images" .null).truthy
    (d.getD "video" .null).truthy

/-- Body of `DouyinDownloader.download` inside its top-level `try`:
parse, fetch, bail out with an empty result when there is no detail object
or the shape is unknown, otherwise dispatch to the matching strategy.
Errors escaping this body are what the top-level `except` catches. -/
def downloadBody (env : DlEnv) (fs : MFS) (text : String) :
    Except String (List DPath × MFS × Nat) :=
  match parseInput text with
  | .error e => .error e
  | .ok parsed =>
    match env.fetch parsed.cacheKey with
    | .error e => .error e
    | .ok data =>
      let awemeDetail := awemeDetailOf data
      if awemeDetail.truthy then
        match routeOf awemeDetail with
        | .gallery => processGallery env fs awemeDetail false
        | .mixed => processGallery env fs awemeDetail true
        | .video => processSingleVideo env fs awemeDetail
        | .unknown => .ok ([], fs, 0)
      else
        .ok ([], fs, 0)

/-- Model of `DouyinDownloader.download`: the whole body is wrapped in
`try/except Exception`, so every failure is logged and turned into the
empty result — the entry point never raises to its caller. -/
def download (env : DlEnv) (fs : MFS) (text : String) : List DPath × MFS × Nat :=
  match downloadBody env fs text with
  | .ok r => r
  | .error _ => ([], fs, 0)

/-! ## Job model and task layer (`models.py`, `tasks.py`) -/

/-- `MessageCode` enumeration of `models.py`. -/
inductive MessageCode where
  | downloadPending | downloadRunning | downloadSuccess | downloadFailed
  | transcribePending | transcribeRunning | transcribeSuccess
  | transcribeEmpty | transcribeFailed
  | internalError
deriving DecidableEq, Repr

/-- The `.value` string of each `MessageCode` member. -/
def MessageCode.value : MessageCode → String
  | .downloadPending => "download_pending"
  | .downloadRunning => "download_running"
  | .downloadSuccess => "download_success"
  | .downloadFailed => "download_failed"
  | .transcribePending => "transcribe_pending"
  | .transcribeRunning => "transcribe_running"
  | .transcribeSuccess => "transcribe_success"
  | .transcribeEmpty => "transcribe_empty"
  | .transcribeFailed => "transcribe_failed"
  | .internalError => "internal_error"

/-- The `MESSAGE_TEMPLATES` dict; every code has an entry. -/
def messageTemplates : MessageCode → Option String
  | .downloadPending => some "Task created, waiting to download."
  | .downloadRunning => some "Downloading video..."
  | .downloadSuccess => some "Download success."
  | .downloadFailed => some "Download failed or no video found."
  | .transcribePending => some "Task created, waiting to transcribe."
  | .transcribeRunning => some "Transcribing (please wait)..."
  | .transcribeSuccess => some "Transcription success."
  | .transcribeEmpty => some "Transcription returned empty."
  | .transcribeFailed => some "Transcription failed."
  | .internalError => some "Internal error occurred."

/-- `ErrorCode` enumeration of `models.py`. -/
inductive ErrorCode where
  | internalError | downloadFailed | noVideoFound | transcribeFailed | transcribeEmpty
deriving DecidableEq, Repr

/-- Structured error attached to a failed job (`ErrorInfo` in `models.py`). -/
structure ErrorInfo where
  code : ErrorCode
  message : String
  detail : Option String
deriving DecidableEq, Repr

/-- `TaskStatus` enumeration of `models.py`. -/
inductive TaskStatus where
  | pending | processing | completed | failed
deriving DecidableEq, Repr

/-- A job result is either the downloaded file list or a transcript. -/
inductive JobResult where
  | files (paths : List DPath) : JobResult
  | transcript (text : String) : JobResult
deriving DecidableEq, Repr

/-- `JobInfo` of `models.py` (timestamps as naturals). -/
structure JobInfo where
  taskId : String
  status : TaskStatus
  videoId : String
  messageCode : Option MessageCode
  message : String
  result : Option JobResult
  createdAt : Nat
  error : Option ErrorInfo
deriving DecidableEq, Repr

/-- Model of `BaseTask.set_message`: store the code and render the template
(all codes have templates, whose text takes no format arguments; the
fallback renders the raw code value). -/
def setMessage (job : JobInfo) (code : MessageCode) : JobInfo :=
  { job with
    messageCode := some code
    message := match messageTemplates code with
      | some t => t
      | none => code.value }

/-- Model of `BaseTask.fail`: set Failed, render the human message, and
record the structured error whose message is the rendered one and whose
detail is `repr(exc)` when an exception is attached. -/
def failJob (job : JobInfo) (code : ErrorCode) (msgCode : MessageCode)
    (exc : Option String) : JobInfo :=
  let job := { job with status := TaskStatus.failed }
  let job := setMessage job msgCode
  { job with error := some { code := code, message := job.message, detail := exc } }

/-- Model of `DownloadTask.run`.  The `dl` argument is the outcome of the
awaited `downloader.download` call: `Except.error` stands for an unexpected
exception escaping anything inside the `try` block (the real `download`
never raises, but the task still guards against it), `Except.ok files` for
a normal return.  The body never raises: it is total, every failure being
folded into the returned job. -/
def downloadTaskRun (dl : Except String (List DPath)) (job : JobInfo) : JobInfo :=
  let job := setMessage { job with status := TaskStatus.processing } .downloadRunning
  match dl with
  | .error e => failJob job .internalError .internalError (some e)
  | .ok files =>
    if files.isEmpty then
      failJob job .downloadFailed .downloadFailed none
    else
      setMessage { job with status := TaskStatus.completed,
                            result := some (.files files) } .downloadSuccess

/-- First file of the list whose (lower-cased) suffix is one of `.mp4`,
`.mov`, `.mkv` — the one the transcription loop of
`DownloadAndTranscribeTask.run` reaches before its `break`. -/
def firstMedia (files : List DPath) : Option DPath :=
  files.find? (fun f =>
    strLower f.suffix == ".mp4" || strLower f.suffix == ".mov" || strLower f.suffix == ".mkv")

/-- Model of `DownloadAndTranscribeTask.run`.  `dl` is the outcome of the
download call (as in `downloadTaskRun`), `tr` the transcription service.
Returns the final job together with the list of files transcription was
invoked on.  Total: every failure is folded into the job. -/
def transTaskRun (dl : Except String (List DPath)) (tr : DPath → Except String String)
    (job : JobInfo) : JobInfo × List DPath :=
  let job1 := setMessage { job with status := TaskStatus.processing } .downloadRunning
  match dl with
  | .error e => (failJob job1 .internalError .internalError (some e), [])
  | .ok files =>
    if files.isEmpty then
      (failJob job1 .noVideoFound .downloadFailed none, [])
    else
      let job2 := setMessage job1 .transcribeRunning
      match firstMedia files with
      | none => (failJob job2 .transcribeEmpty .transcribeEmpty none, [])
      | some f =>
        match tr f with
        | .error e => (failJob job2 .transcribeFailed .transcribeFailed (some e), [f])
        | .ok t =>
          if t == "" then
            (failJob job2 .transcribeEmpty .transcribeEmpty none, [f])
          else
            (setMessage { job2 with status := TaskStatus.completed,
                                    result := some (.transcript t) } .transcribeSuccess, [f])

/-! ## Task registry (`task_manager.py`) -/

/-- Model of `TaskManager.get_job`: dictionary lookup of the job by id. -/
def getJob (tasks : List (String × JobInfo)) (tid : String) : Option JobInfo :=
  alookup tid tasks

/-- Model of `TaskManager.cleanup_old_jobs`: drop every registered job whose
age `now - created_at` exceeds the retention window (the source collects
the expired ids and pops them; over a dict that equals keeping exactly the
non-expired entries). -/
def cleanupOldJobs (now retention : Nat) : List (String × JobInfo) →
    List (String × JobInfo)
  | [] => []
  | (k, j) :: rest =>
    if now - j.createdAt > retention then cleanupOldJobs now retention rest
    else (k, j) :: cleanupOldJobs now retention rest

/-! ## JSON cache manager (`json_manager.py`) -/

/-- Location of a cached metadata document:
`<base>/<folder>/<key>.json`. -/
structure JsonPath where
  base : String
  folder : String
  file : String
deriving DecidableEq

/-- State of the `DataManager`: the JSON files on disk and the
`video_index` table rows (`key → file_id`, i.e. folder name). -/
structure DMState where
  files : List (JsonPath × JVal)
  index : List (String × String)

/-- Folder-name derivation of `save_new_data`: author uid (with the
`unknown_author` fallback for a falsy uid), stringified, then remapped
through `settings.uid_to_name_map` when present — the only moment the
remapping table is ever consulted. -/
def folderNameFor (doc : JVal) (uidMap : List (String × String)) : String :=
  let awemeDetail := (doc.getD "data" (.obj [])).getD "aweme_detail" (.obj [])
  let authorId := (awemeDetail.getD "author" (.obj [])).getD "uid" (.str "")
  let authorId := if authorId.truthy then authorId else .str "unknown_author"
  let folderName := authorId.pyStr
  match alookup folderName uidMap with
  | some mapped => mapped
  | none => folderName

/-- Model of `DataManager.save_new_data` (success path): derive the folder
with the remapping applied now, write the document to
`<base>/<folder>/<key>.json`, then upsert `(key, folder)` into the index;
returns the path and the new state. -/
def saveNewData (base key : String) (doc : JVal) (uidMap : List (String × String))
    (st : DMState) : JsonPath × DMState :=
  let folder := folderNameFor doc uidMap
  let p : JsonPath := { base := base, folder := folder, file := key ++ ".json" }
  (p, { files := upsert p doc st.files, index := upsert key folder st.index })

/-- Content of a file of the cache manager state, when it exists. -/
def readJson (st : DMState) (p : JsonPath) : Option JVal :=
  alookup p st.files

/-- Model of `DataManager.get_data_path`: read the indexed folder for the
key (a falsy row — absent, or the empty string — is a miss), rebuild
`<base>/<folder>/<key>.json` from the STORED folder name without consulting
any remapping table, and answer only if the physical file still exists. -/
def getDataPath (base key : String) (st : DMState) : Option JsonPath :=
  match alookup key st.index with
  | none => none
  | some folder =>
    if folder = "" then none
    else
      let p : JsonPath := { base := base, folder := folder, file := key ++ ".json" }
      if (readJson st p).isSome then some p else none

/-! ## Concrete instances used by witnesses and counterexamples -/

/-- Network oracle on which every URL fails. -/
def netNone : Net := { fetchOk := fun _ => false }

/-- Network oracle on which every URL succeeds. -/
def netAll : Net := { fetchOk := fun _ => true }

/-- Downloader environment whose metadata source always fails. -/
def env0 : DlEnv :=
  { net := netNone, fetch := fun _ => .error "api unavailable",
    videoDir := "videos", imageDir := "images", uidMap := [] }

/-- A cached response for a single-video item with no play addresses. -/
def videoDoc0 : JVal :=
  .obj [("data", .obj [("aweme_detail", .obj [("media_type", .num 4)])])]

/-- Environment whose metadata source always returns `videoDoc0`. -/
def envVideo0 : DlEnv := { env0 with fetch := fun _ => .ok videoDoc0 }

/-- A detail object tagged as a single video (`media_type = 4`) that also
carries an `images` list and no `video` field. -/
def taggedVideoWithImages : JVal :=
  .obj [("media_type", .num 4),
        ("images", .arr [.obj [("url_list", .arr [.str "http-img"])]])]

/-- A freshly created pending job. -/
def job0 : JobInfo :=
  { taskId := "task-1", status := .pending, videoId := "v", messageCode := none,
    message := "", result := none, createdAt := 0, error := none }

/-- A transcription service that always returns a fixed transcript. -/
def tr0 : DPath → Except String String := fun _ => .ok "transcript"

/-- Concrete media destinations. -/
def pVid : DPath := { dir := ["videos", "A"], stem := "clip", suffix := ".mp4" }

/-- A second concrete video destination. -/
def pVid2 : DPath := { dir := ["videos", "A"], stem := "clip2", suffix := ".mp4" }

/-- A concrete gallery image destination. -/
def pImg : DPath := { dir := ["images", "A", "t"], stem := "image_01", suffix := ".heic" }

/-- The mock document of `json_manager.py`'s self-test: author uid `10086`. -/
def doc10086 : JVal :=
  .obj [("data", .obj [("aweme_detail", .obj
    [("aweme_id", .str "73105678912345"), ("desc", .str "test"),
     ("author", .obj [("uid", .str "10086"), ("nickname", .str "tester")])])])]

/-- A remapping table sending uid `10086` to folder `Alice`. -/
def map10086 : List (String × String) := [("10086", "Alice")]

/-- The empty cache-manager state. -/
def dm0 : DMState := { files := [], index := [] }

/-- Two registered jobs: one created at time 0, one at time 95. -/
def tasks0 : List (String × JobInfo) :=
  [("old", { job0 with taskId := "old", createdAt := 0 }),
   ("new", { job0 with taskId := "new", createdAt := 95 })]

/-! ## General lemmas about the embedded containers -/

theorem alookup_upsert_self {κ α : Type} [DecidableEq κ] (k : κ) (v : α)
    (l : List (κ × α)) : alookup k (upsert k v l) = some v := by
  induction l with
  | nil => simp [upsert, alookup]
  | cons hd tl ih =>
    by_cases h : k = hd.1
    · simp [upsert, alookup, h]
    · simp [upsert, alookup, h, ih]

theorem alookup_eq_none {κ α : Type} [DecidableEq κ] (k : κ) (l : List (κ × α))
    (h : k ∉ l.map Prod.fst) : alookup k l = none := by
  induction l with
  | nil => rfl
  | cons hd tl ih =>
    simp only [List.map_cons, List.mem_cons] at h
    push_neg at h
    simp [alookup, h.1, ih h.2]

theorem mem_insertP {fs : MFS} {p q : DPath} : q ∈ insertP fs p ↔ q ∈ fs ∨ q = p := by
  unfold insertP
  by_cases h : p ∈ fs
  · simp only [if_pos h]
    exact ⟨Or.inl, fun hq => hq.elim id (fun e => e ▸ h)⟩
  · simp only [if_neg h, List.mem_cons]
    tauto

theorem insertP_of_not_mem {fs : MFS} {p : DPath} (h : p ∉ fs) :
    insertP fs p = p :: fs := by
  simp [insertP, h]

theorem removeP_of_not_mem {fs : MFS} {p : DPath} (h : p ∉ fs) :
    removeP fs p = fs := by
  refine List.filter_eq_self.mpr ?_
  intro q hq
  simp only [decide_eq_true_eq]
  exact fun e => h (e ▸ hq)

theorem removeP_cons_self {fs : MFS} {p : DPath} :
    removeP (p :: fs) p = removeP fs p := by
  simp [removeP]

/-! ## Claim C1 -/

/-- Claim C1 counterexample: the input `"hello"` matches neither input
shape, `_parse_input` raises, yet `download` returns normally with the
empty result — the parse failure does NOT surface to the caller of
`download`, refuting the claim at this concrete input. -/
theorem c1_parse_error_swallowed_counterexample :
    parseInput "hello" = .error "unable to parse input text: hello"
    ∧ download env0 [] "hello" = ([], [], 0) := by
  exact ⟨rfl, rfl⟩

/-- Claim C1 (amended): for every input that fails to parse, `_parse_input`
raises, but `DouyinDownloader.download` catches the failure in its
top-level `except` block and returns the empty list — the error is logged
and swallowed, never surfaced; the caller observes only an empty result
(which the task layer then maps to a Failed job). -/
theorem c1_parse_failure_yields_empty_result (env : DlEnv) (fs : MFS)
    (text e : String) (h : parseInput text = .error e) :
    download env fs text = ([], fs, 0) := by
  simp only [download, downloadBody, h]

/-- Witness for the amended C1 at the concrete unparseable input. -/
theorem c1_parse_failure_yields_empty_result_witness :
    download env0 [] "hello" = ([], [], 0) :=
  c1_parse_failure_yields_empty_result env0 [] "hello"
    "unable to parse input text: hello" rfl

/-! ## Claim C4 -/

/-- Claim C4 counterexample: a document explicitly tagged as a single video
(`media_type = 4`) that also carries an `images` list (and no `video`
field) is dispatched to the image-gallery strategy, not the single-video
one — the explicit tag does not take precedence over structure. -/
theorem c4_video_tag_counterexample :
    routeOf taggedVideoWithImages = .gallery
    ∧ MediaRoute.gallery ≠ MediaRoute.video := by
  exact ⟨rfl, by decide⟩

/-- Claim C4 (amended): classification tests `is_images`, `is_mixed`,
`is_video` in that order, each flag OR-ing the explicit tag with a
structural condition.  Tags 2 and 68 therefore always win, but a document
tagged 4 is routed to the single-video strategy only when it has no
`images` list: with images and no video it goes to the image gallery, with
images and video to the mixed gallery; tag 42 likewise yields the image
gallery when images are present without video.  With no recognised tag the
structural fallback alone decides. -/
theorem c4_classification_by_dispatch_order :
    ∀ hi hv : Bool,
      classify (.num 4) hi hv =
        (if hi then (if hv then .mixed else .gallery) else .video)
      ∧ classify (.num 2) hi hv = .gallery
      ∧ classify (.num 68) hi hv = .gallery
      ∧ classify (.num 42) hi hv = (if hi && !hv then .gallery else .mixed)
      ∧ classify .null hi hv =
          (if hi && !hv then .gallery
           else if hi && hv then .mixed
           else if hv && !hi then .video
           else .unknown) := by
  decide

/-! ## Claim C10 -/

/-- Claim C10 counterexample: when the download returns an empty list, no
returned file has a media suffix and transcription is indeed never
invoked, but the job fails with code `no_video_found`, not
`transcribe_empty` — the claim's error code is wrong for the empty list. -/
theorem c10_empty_files_code_counterexample :
    (transTaskRun (.ok []) tr0 job0).2 = []
    ∧ (transTaskRun (.ok []) tr0 job0).1.status = .failed
    ∧ (transTaskRun (.ok []) tr0 job0).1.error =
        some { code := .noVideoFound,
               message := "Download failed or no video found.", detail := none }
    ∧ ErrorCode.noVideoFound ≠ ErrorCode.transcribeEmpty := by
  exact ⟨rfl, rfl, rfl, by decide⟩

/-- Claim C10 (amended): per run, `DownloadAndTranscribeTask` invokes
transcription at most once, exactly on the first returned file whose
lower-cased suffix is `.mp4`, `.mov` or `.mkv`; when the returned list is
empty the job fails earlier with code `no_video_found` (transcription not
invoked), and when the list is nonempty but contains no such file,
transcription is never invoked and the job fails with `transcribe_empty`. -/
theorem c10_transcribe_at_most_once (files : List DPath)
    (tr : DPath → Except String String) (job : JobInfo) :
    (transTaskRun (.ok files) tr job).2 =
      (match firstMedia files with | some f => [f] | none => [])
    ∧ (transTaskRun (.ok files) tr job).2.length ≤ 1
    ∧ (files = [] →
        (transTaskRun (.ok files) tr job).1.status = .failed
        ∧ (transTaskRun (.ok files) tr job).1.error =
            some { code := .noVideoFound,
                   message := "Download failed or no video found.", detail := none })
    ∧ (files ≠ [] → firstMedia files = none →
        (transTaskRun (.ok files) tr job).1.status = .failed
        ∧ (transTaskRun (.ok files) tr job).1.error =
            some { code := .transcribeEmpty,
                   message := "Transcription returned empty.", detail := none }) := by
  have hcalls : (transTaskRun (.ok files) tr job).2 =
      (match firstMedia files with | some f => [f] | none => []) := by
    unfold transTaskRun
    by_cases hemp : files.isEmpty
    · have hfe : files = [] := List.isEmpty_iff.mp hemp
      subst hfe
      rfl
    · simp only [if_neg hemp]
      cases hfm : firstMedia files with
      | none => rfl
      | some f =>
        dsimp only
        cases htr : tr f with
        | error e => rfl
        | ok t => by_cases ht : t == "" <;> simp [ht]
  refine ⟨hcalls, ?_, ?_, ?_⟩
  · rw [hcalls]; cases firstMedia files <;> simp
  · intro hfe
    subst hfe
    exact ⟨rfl, rfl⟩
  · intro hne hnone
    cases files with
    | nil => exact absurd rfl hne
    | cons a as =>
      unfold transTaskRun
      simp only [List.isEmpty_cons, if_neg Bool.false_ne_true, hnone]
      exact ⟨rfl, rfl⟩

/-- Witness for the amended C10: one `.mp4` among the returned files,
transcription invoked exactly on it. -/
theorem c10_transcribe_at_most_once_witness :
    (transTaskRun (.ok [pImg, pVid, pVid2]) tr0 job0).2 =
      (match firstMedia [pImg, pVid, pVid2] with | some f => [f] | none => [])
    ∧ ([pImg, pVid, pVid2] ≠ [] → firstMedia [pImg, pVid, pVid2] = none →
        (transTaskRun (.ok [pImg, pVid, pVid2]) tr0 job0).1.status = .failed
        ∧ (transTaskRun (.ok [pImg, pVid, pVid2]) tr0 job0).1.error =
            some { code := .transcribeEmpty,
                   message := "Transcription returned empty.", detail := none }) :=
  ⟨(c10_transcribe_at_most_once [pImg, pVid, pVid2] tr0 job0).1,
   (c10_transcribe_at_most_once [pImg, pVid, pVid2] tr0 job0).2.2.2⟩

/-! ## Claim C3 -/

/-- Claim C3: both task variants are total functions of their oracles — a
`run` never propagates an exception, by the very type of the embedding —
and every terminal state they produce is Completed or Failed; every Failed
state carries a structured error; and an unexpected exception escaping the
awaited work inside the `try` block (`Except.error` from the oracle) is
always captured as the `internal_error` code with the exception text as
detail, never re-raised. -/
theorem c3_task_run_captures_all_failures (dl : Except String (List DPath))
    (tr : DPath → Except String String) (job : JobInfo) :
    ((downloadTaskRun dl job).status = .completed
      ∨ (downloadTaskRun dl job).status = .failed)
    ∧ ((downloadTaskRun dl job).status = .failed →
        (downloadTaskRun dl job).error.isSome = true)
    ∧ (∀ e, dl = .error e →
        (downloadTaskRun dl job).status = .failed
        ∧ (downloadTaskRun dl job).error =
            some { code := .internalError,
                   message := "Internal error occurred.", detail := some e })
    ∧ ((transTaskRun dl tr job).1.status = .completed
      ∨ (transTaskRun dl tr job).1.status = .failed)
    ∧ ((transTaskRun dl tr job).1.status = .failed →
        (transTaskRun dl tr job).1.error.isSome = true)
    ∧ (∀ e, dl = .error e →
        (transTaskRun dl tr job).1.status = .failed
        ∧ (transTaskRun dl tr job).1.error =
            some { code := .internalError,
                   message := "Internal error occurred.", detail := some e }) := by
  cases dl with
  | error e =>
    exact ⟨Or.inr rfl, fun _ => rfl, fun e' he => by cases he; exact ⟨rfl, rfl⟩,
      Or.inr rfl, fun _ => rfl, fun e' he => by cases he; exact ⟨rfl, rfl⟩⟩
  | ok files =>
    have hdl : (downloadTaskRun (.ok files) job).status = .completed
        ∨ (downloadTaskRun (.ok files) job).status = .failed := by
      unfold downloadTaskRun
      by_cases h : files.isEmpty <;> simp [h, failJob, setMessage]
    have hdle : (downloadTaskRun (.ok files) job).status = .failed →
        (downloadTaskRun (.ok files) job).error.isSome = true := by
      unfold downloadTaskRun
      by_cases h : files.isEmpty <;> simp [h, failJob, setMessage]
    have htt : (transTaskRun (.ok files) tr job).1.status = .completed
        ∨ (transTaskRun (.ok files) tr job).1.status = .failed := by
      unfold transTaskRun
      by_cases h : files.isEmpty
      · simp [h, failJob, setMessage]
      · simp only [if_neg h]
        cases firstMedia files with
        | none => simp [failJob, setMessage]
        | some f =>
          dsimp only
          cases tr f with
          | error e => simp [failJob, setMessage]
          | ok t => by_cases ht : t == "" <;> simp [ht, failJob, setMessage]
    have htte : (transTaskRun (.ok files) tr job).1.status = .failed →
        (transTaskRun (.ok files) tr job).1.error.isSome = true := by
      unfold transTaskRun
      by_cases h : files.isEmpty
      · simp [h, failJob, setMessage]
      · simp only [if_neg h]
        cases firstMedia files with
        | none => simp [failJob, setMessage]
        | some f =>
          dsimp only
          cases tr f with
          | error e => simp [failJob, setMessage]
          | ok t => by_cases ht : t == "" <;> simp [ht, failJob, setMessage]
    refine ⟨hdl, hdle, ?_, htt, htte, ?_⟩
    · intro e' he
      exact nomatch he
    · intro e' he
      exact nomatch he

/-- Witness for C3: a concrete unexpected exception is captured as the
`internal_error` structured error by both task variants. -/
theorem c3_task_run_captures_all_failures_witness :
    (downloadTaskRun (.error "boom") job0).status = .failed
    ∧ (downloadTaskRun (.error "boom") job0).error =
        some { code := .internalError,
               message := "Internal error occurred.", detail := some "boom" }
    ∧ (transTaskRun (.error "boom") tr0 job0).1.status = .failed
    ∧ (transTaskRun (.error "boom") tr0 job0).1.error =
        some { code := .internalError,
               message := "Internal error occurred.", detail := some "boom" } :=
  ⟨((c3_task_run_captures_all_failures (.error "boom") tr0 job0).2.2.1 "boom" rfl).1,
   ((c3_task_run_captures_all_failures (.error "boom") tr0 job0).2.2.1 "boom" rfl).2,
   ((c3_task_run_captures_all_failures (.error "boom") tr0 job0).2.2.2.2.2 "boom" rfl).1,
   ((c3_task_run_captures_all_failures (.error "boom") tr0 job0).2.2.2.2.2 "boom" rfl).2⟩

/-! ## Claim C8 -/

/-- Claim C8: after a cleanup sweep at time `now`, a registered job whose
age exceeds the retention window is absent from `get_job`, and a job whose
age is within the window is still returned, unchanged; registry keys are
unique because each submission mints a fresh identifier. -/
theorem c8_cleanup_retention (tasks : List (String × JobInfo))
    (now retention : Nat) (tid : String)
    (hnodup : (tasks.map Prod.fst).Nodup) :
    getJob (cleanupOldJobs now retention tasks) tid =
      (match getJob tasks tid with
       | some j => if now - j.createdAt > retention then none else some j
       | none => none) := by
  have hsub : ∀ l : List (String × JobInfo), ∀ p,
      p ∈ cleanupOldJobs now retention l → p ∈ l := by
    intro l
    induction l with
    | nil => intro p hp; exact absurd hp (List.not_mem_nil p)
    | cons hd tl ih =>
      obtain ⟨k, j⟩ := hd
      intro p hp
      by_cases hage : now - j.createdAt > retention
      · simp only [cleanupOldJobs, if_pos hage] at hp
        exact List.mem_cons_of_mem _ (ih p hp)
      · simp only [cleanupOldJobs, if_neg hage, List.mem_cons] at hp
        cases hp with
        | inl h => exact h ▸ List.mem_cons_self _ _
        | inr h => exact List.mem_cons_of_mem _ (ih p h)
  induction tasks with
  | nil => rfl
  | cons hd tl ih =>
    obtain ⟨k, j⟩ := hd
    simp only [List.map_cons, List.nodup_cons] at hnodup
    by_cases htid : tid = k
    · subst htid
      by_cases hage : now - j.createdAt > retention
      · rw [show cleanupOldJobs now retention ((tid, j) :: tl) =
            cleanupOldJobs now retention tl from by
              simp [cleanupOldJobs, hage]]
        have hnone : getJob (cleanupOldJobs now retention tl) tid = none := by
          refine alookup_eq_none tid _ ?_
          intro hmem
          refine hnodup.1 ?_
          obtain ⟨p, hp, hpe⟩ := List.mem_map.mp hmem
          exact List.mem_map.mpr ⟨p, hsub tl p hp, hpe⟩
        rw [hnone]
        simp [getJob, alookup, hage]
      · rw [show cleanupOldJobs now retention ((tid, j) :: tl) =
            (tid, j) :: cleanupOldJobs now retention tl from by
              simp [cleanupOldJobs, hage]]
        simp [getJob, alookup, hage]
    · have hstep : getJob (cleanupOldJobs now retention ((k, j) :: tl)) tid =
          getJob (cleanupOldJobs now retention tl) tid := by
        by_cases hage : now - j.createdAt > retention
        · simp [cleanupOldJobs, hage]
        · simp [cleanupOldJobs, hage, getJob, alookup, htid]
      rw [hstep, ih hnodup.2]
      simp [getJob, alookup, htid]

/-- Witness for C8 on a concrete registry: with `now = 100` and a retention
window of `10`, the job created at time 0 is gone after the sweep and the
job created at time 95 is still returned unchanged. -/
theorem c8_cleanup_retention_witness :
    getJob (cleanupOldJobs 100 10 tasks0) "old" = none
    ∧ getJob (cleanupOldJobs 100 10 tasks0) "new" =
        some { job0 with taskId := "new", createdAt := 95 } := by
  constructor
  · rw [c8_cleanup_retention tasks0 100 10 "old" (by decide)]
    rfl
  · rw [c8_cleanup_retention tasks0 100 10 "new" (by decide)]
    rfl

/-! ## Claim C2 -/

/-- Claim C2: after `save_new_data(key, doc)` succeeds, `get_data_path(key)`
returns exactly the path chosen at save time, and the file there holds
`doc`.  `get_data_path` takes no remapping table at all — it rebuilds the
path from the folder name stored in the index row — so any change to
`settings.uid_to_name_map` between the save and the lookup cannot affect
the result: the folder component is the one recorded at save time,
`folderNameFor doc uidMap` with the save-time table.  The hypothesis rules
out the degenerate configuration in which the remapping table maps the
author to the empty string (the lookup's SQL truthiness check would treat
that row as absent). -/
theorem c2_save_then_lookup_roundtrip (base key : String) (doc : JVal)
    (uidMap : List (String × String)) (st : DMState)
    (hfolder : folderNameFor doc uidMap ≠ "") :
    getDataPath base key (saveNewData base key doc uidMap st).2 =
      some (saveNewData base key doc uidMap st).1
    ∧ readJson (saveNewData base key doc uidMap st).2
        (saveNewData base key doc uidMap st).1 = some doc
    ∧ (saveNewData base key doc uidMap st).1.folder = folderNameFor doc uidMap := by
  have hidx : alookup key (upsert key (folderNameFor doc uidMap) st.index) =
      some (folderNameFor doc uidMap) := alookup_upsert_self _ _ _
  have hfile : alookup
        ({ base := base, folder := folderNameFor doc uidMap,
           file := key ++ ".json" } : JsonPath)
        (upsert { base := base, folder := folderNameFor doc uidMap,
                  file := key ++ ".json" } doc st.files) = some doc :=
    alookup_upsert_self _ _ _
  refine ⟨?_, ?_, rfl⟩
  · unfold getDataPath saveNewData
    dsimp only
    rw [hidx]
    dsimp only
    rw [if_neg hfolder]
    simp [readJson, hfile]
  · unfold saveNewData readJson
    dsimp only
    exact hfile

/-- Witness for C2: saving the self-test document of `json_manager.py`
under the remap `10086 ↦ Alice` yields path `data-json/Alice/<key>.json`,
and looking the key up afterwards returns that very path with the document
intact. -/
theorem c2_save_then_lookup_roundtrip_witness :
    getDataPath "data-json" "73105678912345"
        (saveNewData "data-json" "73105678912345" doc10086 map10086 dm0).2 =
      some { base := "data-json", folder := "Alice", file := "73105678912345.json" }
    ∧ readJson (saveNewData "data-json" "73105678912345" doc10086 map10086 dm0).2
        (saveNewData "data-json" "73105678912345" doc10086 map10086 dm0).1 =
        some doc10086 := by
  have h := c2_save_then_lookup_roundtrip "data-json" "73105678912345" doc10086
    map10086 dm0 (by decide)
  exact ⟨h.1, h.2.1⟩

/-! ## Claim C7 -/

/-- Claim C7: for a document routed to the single-video strategy whose
video play-address mirror list is absent or empty, `_process_single_video`
raises before any download pair is attempted — retrieval fails for that
(only) pair — `download` turns that into the empty result, and a
`DownloadTask` run on such a result marks the job Failed with error code
`download_failed`. -/
theorem c7_empty_video_urls_job_failed (env : DlEnv) (fs : MFS) (text : String)
    (data : JVal) (job : JobInfo)
    (hp : (parseInput text).isOk = true)
    (hfetch : ∀ k, env.fetch k = .ok data)
    (hdetail : (awemeDetailOf data).truthy = true)
    (hroute : routeOf (awemeDetailOf data) = .video)
    (hurls : ((((awemeDetailOf data).getD "video" (.obj [])).getD "play_addr"
        (.obj [])).getD "url_list" .null).truthy = false) :
    (∃ e, processSingleVideo env fs (awemeDetailOf data) = .error e)
    ∧ download env fs text = ([], fs, 0)
    ∧ (downloadTaskRun (.ok (download env fs text).1) job).status = .failed
    ∧ (downloadTaskRun (.ok (download env fs text).1) job).error =
        some { code := .downloadFailed,
               message := "Download failed or no video found.", detail := none } := by
  have hpsv : processSingleVideo env fs (awemeDetailOf data) =
      .error "no video play address found" := by
    unfold processSingleVideo
    dsimp only
    rw [hurls]
    simp
  have hdl : download env fs text = ([], fs, 0) := by
    unfold download downloadBody
    cases hpe : parseInput text with
    | error e => rw [hpe] at hp
    | ok parsed =>
      dsimp only
      rw [hfetch parsed.cacheKey]
      dsimp only
      rw [hdetail, hroute, hpsv]
      rfl
  refine ⟨⟨"no video play address found", hpsv⟩, hdl, ?_, ?_⟩
  · rw [hdl]
    rfl
  · rw [hdl]
    rfl

/-- Witness for C7: the concrete environment serving `videoDoc0` (tagged a
single video, no play addresses) fails the download and the job goes
Failed with `download_failed`. -/
theorem c7_empty_video_urls_job_failed_witness :
    download envVideo0 [] "12345678901234567890" = ([], [], 0)
    ∧ (downloadTaskRun (.ok (download envVideo0 [] "12345678901234567890").1)
        job0).status = .failed := by
  have h := c7_empty_video_urls_job_failed envVideo0 [] "12345678901234567890"
    videoDoc0 job0 rfl (fun _ => rfl) rfl rfl rfl
  exact ⟨h.2.1, h.2.2.1⟩

/-! ## Behaviour of the download executor, pair by pair -/

theorem tryUrls_all_fail {net : Net} {fs : MFS} {save : DPath} {urls : List String}
    (hs : save ∉ fs) (hf : ∀ u ∈ urls, net.fetchOk u = false) :
    tryUrls net fs save urls = (fs, false, urls.length) := by
  induction urls with
  | nil => rfl
  | cons u rest ih =>
    have hu : net.fetchOk u = false := hf u (List.mem_cons_self u rest)
    unfold tryUrls downloadFile
    rw [hu]
    simp only [Bool.false_eq_true, if_false, removeP_of_not_mem hs]
    rw [ih (fun v hv => hf v (List.mem_cons_of_mem u hv))]
    rfl

theorem tryUrls_success_nonheic {net : Net} {fs : MFS} {save : DPath}
    {urls : List String} (hs : save ∉ fs) (hnh : strLower save.suffix ≠ ".heic")
    (hex : ∃ u ∈ urls, net.fetchOk u = true) :
    (tryUrls net fs save urls).1 = insertP fs save
    ∧ (tryUrls net fs save urls).2.1 = true := by
  induction urls with
  | nil => obtain ⟨u, hu, _⟩ := hex; exact absurd hu (List.not_mem_nil u)
  | cons u rest ih =>
    by_cases hu : net.fetchOk u = true
    · unfold tryUrls downloadFile
      rw [hu]
      simp [if_neg hnh]
    · have hu' : net.fetchOk u = false := by
        cases h : net.fetchOk u
        · rfl
        · exact absurd h hu
      unfold tryUrls downloadFile
      rw [hu']
      simp only [Bool.false_eq_true, if_false, removeP_of_not_mem hs]
      obtain ⟨v, hv, hfv⟩ := hex
      have hv' : v ∈ rest := by
        cases List.mem_cons.mp hv with
        | inl h => exact absurd (h ▸ hfv) (by simp [hu'])
        | inr h => exact h
      have := ih ⟨v, hv', hfv⟩
      simp [this.1, this.2]

theorem tryUrls_success_heic {net : Net} {fs : MFS} {save : DPath}
    {urls : List String} (hs : save ∉ fs) (hh : strLower save.suffix = ".heic")
    (hex : ∃ u ∈ urls, net.fetchOk u = true) :
    (tryUrls net fs save urls).1 = insertP fs (save.withSuffix ".jpg")
    ∧ (tryUrls net fs save urls).2.1 = true := by
  induction urls with
  | nil => obtain ⟨u, hu, _⟩ := hex; exact absurd hu (List.not_mem_nil u)
  | cons u rest ih =>
    by_cases hu : net.fetchOk u = true
    · have hstep : downloadFile net fs u save =
          (insertP fs (save.withSuffix ".jpg"), true) := by
        unfold downloadFile heicToJpg
        rw [hu]
        simp only [if_true, if_pos hh]
        rw [insertP_of_not_mem hs]
        rw [if_pos ⟨List.mem_cons_self save fs, hh⟩]
        rw [removeP_cons_self, removeP_of_not_mem hs]
      unfold tryUrls
      rw [hstep]
      simp
    · have hu' : net.fetchOk u = false := by
        cases h : net.fetchOk u
        · rfl
        · exact absurd h hu
      unfold tryUrls downloadFile
      rw [hu']
      simp only [Bool.false_eq_true, if_false, removeP_of_not_mem hs]
      obtain ⟨v, hv, hfv⟩ := hex
      have hv' : v ∈ rest := by
        cases List.mem_cons.mp hv with
        | inl h => exact absurd (h ▸ hfv) (by simp [hu'])
        | inr h => exact h
      have := ih ⟨v, hv', hfv⟩
      simp [this.1, this.2]

theorem dwr_skip {net : Net} {fs : MFS} {urls : List String} {save : DPath}
    (hmem : save ∈ fs)
    (hnp : ¬(strLower save.suffix = ".heic" ∧ save.withSuffix ".jpg" ∉ fs)) :
    downloadWithRetry net fs urls save = (fs, true, 0) := by
  unfold downloadWithRetry
  rw [if_pos ⟨hmem, hnp⟩]

theorem dwr_fail {net : Net} {fs : MFS} {urls : List String} {save : DPath}
    (hs : save ∉ fs) (hf : ∀ u ∈ urls, net.fetchOk u = false) :
    (downloadWithRetry net fs urls save).1 = fs
    ∧ (downloadWithRetry net fs urls save).2.1 = false := by
  unfold downloadWithRetry
  rw [if_neg (fun h => hs h.1)]
  by_cases hu : urls = []
  · rw [if_pos hu]
    exact ⟨rfl, rfl⟩
  · rw [if_neg hu, tryUrls_all_fail hs hf]
    exact ⟨rfl, rfl⟩

theorem dwr_succ_nonheic {net : Net} {fs : MFS} {urls : List String} {save : DPath}
    (hnh : strLower save.suffix ≠ ".heic")
    (hsucc : save ∈ fs ∨ ∃ u ∈ urls, net.fetchOk u = true) :
    (downloadWithRetry net fs urls save).1 = insertP fs save
    ∧ (downloadWithRetry net fs urls save).2.1 = true := by
  by_cases hmem : save ∈ fs
  · rw [dwr_skip hmem (fun h => hnh h.1)]
    constructor
    · simp [insertP, hmem]
    · rfl
  · obtain hex := hsucc.resolve_left hmem
    have hne : urls ≠ [] := by
      obtain ⟨u, hu, _⟩ := hex
      intro h
      rw [h] at hu
      exact List.not_mem_nil u hu
    unfold downloadWithRetry
    rw [if_neg (fun h => hmem h.1), if_neg hne]
    exact tryUrls_success_nonheic hmem hnh hex

theorem dwr_succ_heic {net : Net} {fs : MFS} {urls : List String} {save : DPath}
    (hs : save ∉ fs) (hh : strLower save.suffix = ".heic")
    (hex : ∃ u ∈ urls, net.fetchOk u = true) :
    (downloadWithRetry net fs urls save).1 = insertP fs (save.withSuffix ".jpg")
    ∧ (downloadWithRetry net fs urls save).2.1 = true := by
  have hne : urls ≠ [] := by
    obtain ⟨u, hu, _⟩ := hex
    intro h
    rw [h] at hu
    exact List.not_mem_nil u hu
  unfold downloadWithRetry
  rw [if_neg (fun h => hs h.1), if_neg hne]
  exact tryUrls_success_heic hs hh hex

theorem dwr_attempts_when_heic_pending {net : Net} {fs : MFS} {urls : List String}
    {save : DPath} (hmem : save ∈ fs) (hh : strLower save.suffix = ".heic")
    (hjpg : save.withSuffix ".jpg" ∉ fs) (hne : urls ≠ []) :
    1 ≤ (downloadWithRetry net fs urls save).2.2 := by
  unfold downloadWithRetry
  rw [if_neg (fun h => h.2 ⟨hh, hjpg⟩), if_neg hne]
  obtain ⟨u, rest, rfl⟩ : ∃ u rest, urls = u :: rest := by
    cases urls with
    | nil => exact absurd rfl hne
    | cons u rest => exact ⟨u, rest, rfl⟩
  unfold tryUrls
  by_cases hr : (downloadFile net fs u save).2 = true
  · simp [hr]
  · simp only [hr, Bool.false_eq_true, if_false]
    omega

theorem withSuffix_suffix (p : DPath) (s : String) : (p.withSuffix s).suffix = s := rfl

theorem runPairs_cons (net : Net) (fs : MFS) (urls : List String) (save : DPath)
    (tl : List (List String × DPath)) :
    runPairs net fs ((urls, save) :: tl) =
      ((runPairs net (downloadWithRetry net fs urls save).1 tl).1,
       (downloadWithRetry net fs urls save).2.2 +
         (runPairs net (downloadWithRetry net fs urls save).1 tl).2) := rfl

theorem runPairs_append_fs (net : Net) (a b : List (List String × DPath)) :
    ∀ fs : MFS, (runPairs net fs (a ++ b)).1 = (runPairs net (runPairs net fs a).1 b).1 := by
  induction a with
  | nil => intro fs; rfl
  | cons hd tl ih =>
    intro fs
    obtain ⟨urls, save⟩ := hd
    rw [List.cons_append, runPairs_cons, runPairs_cons]
    exact ih (downloadWithRetry net fs urls save).1

theorem runPairs_all_skip (net : Net) (ps : List (List String × DPath)) :
    ∀ fs : MFS,
      (∀ p ∈ ps, p.2 ∈ fs ∧
        ¬(strLower p.2.suffix = ".heic" ∧ p.2.withSuffix ".jpg" ∉ fs)) →
      runPairs net fs ps = (fs, 0) := by
  induction ps with
  | nil => intro fs _; rfl
  | cons hd tl ih =>
    intro fs h
    obtain ⟨urls, save⟩ := hd
    have hmem : save ∈ fs := (h (urls, save) (List.mem_cons_self _ _)).1
    have hnp : ¬(strLower save.suffix = ".heic" ∧ save.withSuffix ".jpg" ∉ fs) :=
      (h (urls, save) (List.mem_cons_self _ _)).2
    rw [runPairs_cons, dwr_skip hmem hnp]
    dsimp only
    rw [ih fs (fun p hp => h p (List.mem_cons_of_mem _ hp))]
    simp

theorem runPairs_all_succeed_nonheic (net : Net) (ps : List (List String × DPath)) :
    ∀ fs : MFS,
      (∀ p ∈ ps, strLower p.2.suffix ≠ ".heic") →
      (∀ p ∈ ps, p.2 ∈ fs ∨ ∃ u ∈ p.1, net.fetchOk u = true) →
      (∀ q ∈ fs, q ∈ (runPairs net fs ps).1)
      ∧ (∀ p ∈ ps, p.2 ∈ (runPairs net fs ps).1)
      ∧ (∀ q ∈ (runPairs net fs ps).1, q ∈ fs ∨ q ∈ ps.map Prod.snd) := by
  induction ps with
  | nil =>
    intro fs _ _
    exact ⟨fun q hq => hq, fun p hp => absurd hp (List.not_mem_nil p),
      fun q hq => Or.inl hq⟩
  | cons hd tl ih =>
    intro fs hnh hsucc
    obtain ⟨urls, save⟩ := hd
    have hnh1 : strLower save.suffix ≠ ".heic" :=
      hnh (urls, save) (List.mem_cons_self _ _)
    have hsucc1 : save ∈ fs ∨ ∃ u ∈ urls, net.fetchOk u = true :=
      hsucc (urls, save) (List.mem_cons_self _ _)
    have hstep := dwr_succ_nonheic hnh1 hsucc1
    have ihh := ih (insertP fs save)
      (fun p hp => hnh p (List.mem_cons_of_mem _ hp))
      (fun p hp => (hsucc p (List.mem_cons_of_mem _ hp)).imp
        (fun hm => mem_insertP.mpr (Or.inl hm)) id)
    rw [runPairs_cons, hstep.1]
    refine ⟨?_, ?_, ?_⟩
    · intro q hq
      exact ihh.1 q (mem_insertP.mpr (Or.inl hq))
    · intro p hp
      cases List.mem_cons.mp hp with
      | inl h =>
        subst h
        exact ihh.1 save (mem_insertP.mpr (Or.inr rfl))
      | inr h => exact ihh.2.1 p h
    · intro q hq
      cases ihh.2.2 q hq with
      | inl h =>
        cases mem_insertP.mp h with
        | inl hm => exact Or.inl hm
        | inr he =>
          subst he
          exact Or.inr (List.mem_cons_self _ _)
      | inr h => exact Or.inr (List.mem_cons_of_mem _ h)

theorem runPairs_all_heic_success (net : Net) (ps : List (List String × DPath)) :
    ∀ fs : MFS,
      (∀ p ∈ ps, strLower p.2.suffix = ".heic") →
      (∀ p ∈ ps, p.2.suffix ≠ ".jpg") →
      (∀ p ∈ ps, p.2 ∉ fs) →
      (∀ p ∈ ps, ∃ u ∈ p.1, net.fetchOk u = true) →
      (∀ q ∈ fs, q ∈ (runPairs net fs ps).1)
      ∧ (∀ q ∈ (runPairs net fs ps).1, q ∈ fs ∨ q.suffix = ".jpg")
      ∧ (∀ p ∈ ps, p.2.withSuffix ".jpg" ∈ (runPairs net fs ps).1)
      ∧ (∀ p ∈ ps, p.2 ∉ (runPairs net fs ps).1) := by
  induction ps with
  | nil =>
    intro fs _ _ _ _
    exact ⟨fun q hq => hq, fun q hq => Or.inl hq,
      fun p hp => absurd hp (List.not_mem_nil p),
      fun p hp => absurd hp (List.not_mem_nil p)⟩
  | cons hd tl ih =>
    intro fs hh hj hnm hsucc
    obtain ⟨urls, save⟩ := hd
    have hhh : strLower save.suffix = ".heic" :=
      hh (urls, save) (List.mem_cons_self _ _)
    have hjh : save.suffix ≠ ".jpg" := hj (urls, save) (List.mem_cons_self _ _)
    have hnm1 : save ∉ fs := hnm (urls, save) (List.mem_cons_self _ _)
    have hsucc1 : ∃ u ∈ urls, net.fetchOk u = true :=
      hsucc (urls, save) (List.mem_cons_self _ _)
    have hstep := dwr_succ_heic hnm1 hhh hsucc1
    have hsavejpg : save ≠ save.withSuffix ".jpg" := by
      intro he
      exact hjh (he ▸ withSuffix_suffix save ".jpg")
    have ihh := ih (insertP fs (save.withSuffix ".jpg"))
      (fun p hp => hh p (List.mem_cons_of_mem _ hp))
      (fun p hp => hj p (List.mem_cons_of_mem _ hp))
      (fun p hp => by
        intro hm
        cases mem_insertP.mp hm with
        | inl h => exact hnm p (List.mem_cons_of_mem _ hp) h
        | inr h =>
          exact hj p (List.mem_cons_of_mem _ hp) (h ▸ withSuffix_suffix save ".jpg")
      )
      (fun p hp => hsucc p (List.mem_cons_of_mem _ hp))
    rw [runPairs_cons, hstep.1]
    refine ⟨?_, ?_, ?_, ?_⟩
    · intro q hq
      exact ihh.1 q (mem_insertP.mpr (Or.inl hq))
    · intro q hq
      cases ihh.2.1 q hq with
      | inl h =>
        cases mem_insertP.mp h with
        | inl hm => exact Or.inl hm
        | inr he => exact Or.inr (he ▸ withSuffix_suffix save ".jpg")
      | inr h => exact Or.inr h
    · intro p hp
      cases List.mem_cons.mp hp with
      | inl h =>
        subst h
        exact ihh.1 _ (mem_insertP.mpr (Or.inr rfl))
      | inr h => exact ihh.2.2.1 p h
    · intro p hp
      cases List.mem_cons.mp hp with
      | inl h =>
        subst h
        intro hm
        cases ihh.2.1 _ hm with
        | inl hin =>
          cases mem_insertP.mp hin with
          | inl hf => exact hnm1 hf
          | inr he => exact hsavejpg he
        | inr hs => exact hjh hs
      | inr h => exact ihh.2.2.2 p h

/-! ## Claim C6 -/

/-- Claim C6: when every destination of a job's (nonempty) pair list
already exists on disk — and none is a `.heic` awaiting its missing `.jpg`
counterpart — re-running the batch performs zero network download attempts,
leaves the filesystem unchanged, returns the very same file list, and the
re-run `DownloadTask` reports Completed with that list as result.  The sole
exception (last conjunct): an existing `.heic` destination whose `.jpg`
counterpart is missing is re-downloaded, i.e. at least one network attempt
is made for it. -/
theorem c6_idempotent_rerun (net : Net) (fs : MFS)
    (pairs : List (List String × DPath)) (job : JobInfo)
    (hne : pairs ≠ [])
    (hex : ∀ p ∈ pairs, p.2 ∈ fs)
    (hnp : ∀ p ∈ pairs,
      ¬(strLower p.2.suffix = ".heic" ∧ p.2.withSuffix ".jpg" ∉ fs)) :
    batchDownload net fs pairs = (pairs.map Prod.snd, fs, 0)
    ∧ (downloadTaskRun (.ok (batchDownload net fs pairs).1) job).status = .completed
    ∧ (downloadTaskRun (.ok (batchDownload net fs pairs).1) job).result =
        some (.files (pairs.map Prod.snd))
    ∧ (∀ fs2 : MFS, ∀ urls : List String, ∀ save : DPath,
        save ∈ fs2 → strLower save.suffix = ".heic" →
        save.withSuffix ".jpg" ∉ fs2 → urls ≠ [] →
        1 ≤ (downloadWithRetry net fs2 urls save).2.2) := by
  have hrun : runPairs net fs pairs = (fs, 0) :=
    runPairs_all_skip net pairs fs (fun p hp => ⟨hex p hp, hnp p hp⟩)
  have hbe : pairs.isEmpty = false := by
    cases pairs with
    | nil => exact absurd rfl hne
    | cons a l => rfl
  have hfilter : (pairs.map Prod.snd).filter (fun p => decide (p ∈ fs)) =
      pairs.map Prod.snd := by
    refine List.filter_eq_self.mpr ?_
    intro a ha
    obtain ⟨p, hp, hpe⟩ := List.mem_map.mp ha
    exact decide_eq_true (hpe ▸ hex p hp)
  have hbatch : batchDownload net fs pairs = (pairs.map Prod.snd, fs, 0) := by
    unfold batchDownload
    simp only [hbe, Bool.false_eq_true, if_false, hrun]
    rw [hfilter]
  have hmapne : (pairs.map Prod.snd).isEmpty = false := by
    cases hmp : pairs.map Prod.snd with
    | nil => exact absurd (List.map_eq_nil_iff.mp hmp) hne
    | cons a l => rfl
  refine ⟨hbatch, ?_, ?_, ?_⟩
  · rw [hbatch]
    unfold downloadTaskRun
    simp only [hmapne, Bool.false_eq_true, if_false]
    rfl
  · rw [hbatch]
    unfold downloadTaskRun
    simp only [hmapne, Bool.false_eq_true, if_false]
    rfl
  · intro fs2 urls save hm hh hj hne2
    exact dwr_attempts_when_heic_pending hm hh hj hne2

/-- Witness for C6 at a concrete one-pair job whose destination exists. -/
theorem c6_idempotent_rerun_witness :
    batchDownload netNone [pVid] [(["u"], pVid)] = ([pVid], [pVid], 0)
    ∧ (downloadTaskRun
        (.ok (batchDownload netNone [pVid] [(["u"], pVid)]).1) job0).status =
        .completed := by
  have h := c6_idempotent_rerun netNone [pVid] [(["u"], pVid)] job0
    (by simp) (by decide) (by decide)
  exact ⟨h.1, h.2.1⟩

/-! ## Claim C5 -/

/-- Claim C5 counterexample: a batch of two pairs, the first with an empty
(exhausted) mirror list, the second downloading successfully — but to a
`.heic` destination.  The download succeeds, the file is converted to
`.jpg` and the recorded `.heic` destination deleted, so the batch returns
the empty list rather than the one successful destination the claim
promises; the `.jpg` sibling is what is left on disk. -/
theorem c5_heic_success_omitted_counterexample :
    (batchDownload netAll [] [([], pVid), (["u"], pImg)]).1 = []
    ∧ (batchDownload netAll [] [([], pVid), (["u"], pImg)]).2.1 =
        [pImg.withSuffix ".jpg"]
    ∧ ([] : List DPath) ≠ [pImg] := by
  exact ⟨rfl, rfl, by decide⟩

/-- Claim C5 (amended): given pairs `pre ++ [(urlsJ, saveJ)] ++ post` in
which the distinguished pair's mirror list is exhausted (every mirror
fails — an empty list trivially so), its destination is absent from disk
and distinct from the other destinations, every other pair succeeds (its
destination already exists or some mirror delivers), and no destination has
the `.heic` suffix (a successful `.heic` is converted and omitted, see the
counterexample), the batch download returns exactly the other pairs'
destinations, in order; it raises nothing — `_batch_download` gathers with
`return_exceptions=True` and logs the failure. -/
theorem c5_batch_resilient_nonheic (net : Net) (fs : MFS)
    (pre post : List (List String × DPath)) (urlsJ : List String) (saveJ : DPath)
    (hnh : ∀ p ∈ pre ++ (urlsJ, saveJ) :: post, strLower p.2.suffix ≠ ".heic")
    (hJfs : saveJ ∉ fs)
    (hJdist : saveJ ∉ (pre ++ post).map Prod.snd)
    (hJfail : ∀ u ∈ urlsJ, net.fetchOk u = false)
    (hsucc : ∀ p ∈ pre ++ post, p.2 ∈ fs ∨ ∃ u ∈ p.1, net.fetchOk u = true) :
    (batchDownload net fs (pre ++ (urlsJ, saveJ) :: post)).1 =
      (pre ++ post).map Prod.snd := by
  have A := runPairs_all_succeed_nonheic net pre fs
    (fun p hp => hnh p (List.mem_append_left _ hp))
    (fun p hp => hsucc p (List.mem_append_left _ hp))
  have hJ1 : saveJ ∉ (runPairs net fs pre).1 := by
    intro hmem
    cases A.2.2 saveJ hmem with
    | inl h => exact hJfs h
    | inr h =>
      refine hJdist ?_
      rw [List.map_append]
      exact List.mem_append_left _ h
  have hfail := dwr_fail hJ1 hJfail
  have B := runPairs_all_succeed_nonheic net post (runPairs net fs pre).1
    (fun p hp => hnh p (List.mem_append_right _ (List.mem_cons_of_mem _ hp)))
    (fun p hp => (hsucc p (List.mem_append_right _ hp)).imp (A.1 p.2) id)
  have hfsF : (runPairs net fs (pre ++ (urlsJ, saveJ) :: post)).1 =
      (runPairs net (runPairs net fs pre).1 post).1 := by
    rw [runPairs_append_fs net pre ((urlsJ, saveJ) :: post) fs, runPairs_cons]
    dsimp only
    rw [hfail.1]
  have hJF : saveJ ∉ (runPairs net (runPairs net fs pre).1 post).1 := by
    intro hmem
    cases B.2.2 saveJ hmem with
    | inl h => exact hJ1 h
    | inr h =>
      refine hJdist ?_
      rw [List.map_append]
      exact List.mem_append_right _ h
  have hbe : (pre ++ (urlsJ, saveJ) :: post).isEmpty = false := by
    cases pre <;> rfl
  unfold batchDownload
  simp only [hbe, Bool.false_eq_true, if_false]
  rw [hfsF, List.map_append, List.map_cons, List.filter_append, List.filter_cons]
  rw [decide_eq_false hJF]
  simp only [Bool.false_eq_true, if_false]
  have h1 : ∀ a ∈ pre.map Prod.snd,
      decide (a ∈ (runPairs net (runPairs net fs pre).1 post).1) = true := by
    intro a ha
    obtain ⟨p, hp, hpe⟩ := List.mem_map.mp ha
    exact decide_eq_true (hpe ▸ B.1 p.2 (A.2.1 p hp))
  have h2 : ∀ a ∈ post.map Prod.snd,
      decide (a ∈ (runPairs net (runPairs net fs pre).1 post).1) = true := by
    intro a ha
    obtain ⟨p, hp, hpe⟩ := List.mem_map.mp ha
    exact decide_eq_true (hpe ▸ B.2.1 p hp)
  rw [List.filter_eq_self.mpr h1, List.filter_eq_self.mpr h2, List.map_append]

/-- Witness for the amended C5: two pairs, the second with an exhausted
(empty) mirror list, the first succeeding; the batch returns exactly the
first destination. -/
theorem c5_batch_resilient_nonheic_witness :
    (batchDownload netAll [] [(["u"], pVid), ([], pVid2)]).1 = [pVid] :=
  c5_batch_resilient_nonheic netAll [] [(["u"], pVid)] [] [] pVid2
    (by decide) (by decide) (by decide) (by decide) (by decide)

/-! ## Claim C9 -/

theorem galleryItemTask_image_suffix (saveDir : List String) (i : Nat) (item : JVal)
    (pr : List String × DPath) (h : galleryItemTask saveDir false i item = some pr) :
    pr.2.suffix = ".heic" := by
  unfold galleryItemTask at h
  simp only [Bool.false_and, Bool.false_eq_true, if_false] at h
  by_cases himg : (item.getD "url_list" JVal.null).truthy
  · rw [if_pos himg] at h
    have := Option.some.inj h
    rw [← this]
  · rw [if_neg himg] at h
    exact absurd h (by simp)

/-- Claim C9: every image item of a non-mixed gallery is given a `.heic`
destination (first conjunct about `_process_gallery`'s task builder); for
any batch whose pairs all have `.heic` destinations not yet on disk and all
download successfully, every destination is converted — its `.jpg` sibling
exists afterwards while the recorded `.heic` path does not — so the batch
returns the empty list, and the owning `DownloadTask` then marks the job
Failed with `download_failed`. -/
theorem c9_heic_gallery_empty_result (net : Net) (fs : MFS)
    (pairs : List (List String × DPath)) (job : JobInfo)
    (hh : ∀ p ∈ pairs, p.2.suffix = ".heic")
    (hnm : ∀ p ∈ pairs, p.2 ∉ fs)
    (hsucc : ∀ p ∈ pairs, ∃ u ∈ p.1, net.fetchOk u = true) :
    (∀ saveDir i item pr, galleryItemTask saveDir false i item = some pr →
        pr.2.suffix = ".heic")
    ∧ (batchDownload net fs pairs).1 = []
    ∧ (∀ p ∈ pairs, p.2.withSuffix ".jpg" ∈ (batchDownload net fs pairs).2.1
        ∧ p.2 ∉ (batchDownload net fs pairs).2.1)
    ∧ (downloadTaskRun (.ok (batchDownload net fs pairs).1) job).status = .failed
    ∧ (downloadTaskRun (.ok (batchDownload net fs pairs).1) job).error =
        some { code := .downloadFailed,
               message := "Download failed or no video found.", detail := none } := by
  have hh' : ∀ p ∈ pairs, strLower p.2.suffix = ".heic" := by
    intro p hp
    rw [hh p hp]
    decide
  have hj' : ∀ p ∈ pairs, p.2.suffix ≠ ".jpg" := by
    intro p hp
    rw [hh p hp]
    decide
  cases pairs with
  | nil =>
    exact ⟨fun saveDir i item pr h => galleryItemTask_image_suffix saveDir i item pr h,
      rfl, fun p hp => absurd hp (List.not_mem_nil p), rfl, rfl⟩
  | cons hd tl =>
    have R := runPairs_all_heic_success net (hd :: tl) fs hh' hj' hnm hsucc
    have hbatch1 : (batchDownload net fs (hd :: tl)).1 = [] := by
      unfold batchDownload
      simp only [List.isEmpty_cons, Bool.false_eq_true, if_false]
      refine List.filter_eq_nil_iff.mpr ?_
      intro a ha
      obtain ⟨p, hp, hpe⟩ := List.mem_map.mp ha
      simp only [decide_eq_true_eq]
      exact hpe ▸ R.2.2.2 p hp
    have hbatchfs : (batchDownload net fs (hd :: tl)).2.1 =
        (runPairs net fs (hd :: tl)).1 := by
      unfold batchDownload
      simp only [List.isEmpty_cons, Bool.false_eq_true, if_false]
    refine ⟨fun saveDir i item pr h => galleryItemTask_image_suffix saveDir i item pr h,
      hbatch1, ?_, ?_, ?_⟩
    · intro p hp
      rw [hbatchfs]
      exact ⟨R.2.2.1 p hp, R.2.2.2 p hp⟩
    · rw [hbatch1]
      rfl
    · rw [hbatch1]
      rfl

/-- Witness for C9: a one-image gallery batch that downloads successfully
returns no paths, leaves only the `.jpg` conversion on disk, and the job is
marked Failed. -/
theorem c9_heic_gallery_empty_result_witness :
    (batchDownload netAll [] [(["u"], pImg)]).1 = []
    ∧ pImg.withSuffix ".jpg" ∈ (batchDownload netAll [] [(["u"], pImg)]).2.1
    ∧ (downloadTaskRun (.ok (batchDownload netAll [] [(["u"], pImg)]).1)
        job0).status = .failed := by
  have h := c9_heic_gallery_empty_result netAll [] [(["u"], pImg)] job0
    (by decide) (by decide) (by decide)
  exact ⟨h.2.1, (h.2.2.1 (["u"], pImg) (List.mem_cons_self _ _)).1, h.2.2.2.1⟩

end DouyinNasAsr
